import Mathlib

/-
Verification development for the dialoguer prompt library (fork ahum/dialoguer).

Shallow embedding of:
  - src/tools.rs        : wrap_sep_string, escape_path
  - src/completers/path.rs : split_path, complete_path
  - src/prompts.rs      : Confirmation, Input (line input), PasswordInput,
                          FileInput (file browser) interaction loops

Terminals are modelled as finite scripts of read results: each read yields
either an IO error (Except.error) or the value read (Except.ok).  Writes to
the terminal (rendering) never influence control flow in the source other
than through the error-propagation operator on their results; rendering is
modelled as infallible, since every claim under study concerns read or
filesystem failures.  A Rust panic (a .unwrap() on an Err or None) is a
distinct outcome from an Err return, so outcomes carry an explicit
`panicked` constructor.
-/

/-- IO error payloads; the Rust std::io::Error is opaque to this code, only
its identity matters. -/
abbrev IOErr := String

/-- Outcome of an interaction: a returned value (Ok), a propagated error
(Err), a Rust panic from .unwrap(), or exhaustion of the finite input
script (the real loop would block for more input). -/
inductive PRes (α : Type) where
  | ok (a : α)
  | err (e : IOErr)
  | panicked
  | outOfInput
deriving DecidableEq, Repr

/- ===================== src/tools.rs ===================== -/

/-- Character-wise image: applies `f` to each character and concatenates.
Used to state per-character escaping (regex replace_all with single-char
matches, and the escaping loops). -/
def escImage (f : Char → List Char) : List Char → List Char
  | [] => []
  | c :: rest => f c ++ escImage f rest

/-- The character class of the regex in escape_path:
[!\(\)<>,\?\]\[\{\} \\'"`*\^#|$&;] -/
def isSpecialChar (c : Char) : Bool :=
  c ∈ ['!', '(', ')', '<', '>', ',', '?', ']', '[', '\x7b', '\x7d', ' ',
       '\\', '\x27', '\x22', '\x60', '*', '^', '#', '|', '$', '&', ';']

/-- escape_path (src/tools.rs 59-70): regex replace_all of every special
character with a backslash-prefixed copy.  (The Err branch of Regex::new is
dead: the pattern is a valid constant.) -/
def escape_path (s : List Char) : List Char :=
  escImage (fun c => if isSpecialChar c then ['\\', c] else [c]) s

/-- Loop state of wrap_sep_string: the accumulated _token, the met_subsep
flag and previous_subsep character. -/
structure WrapSt where
  token : List Char
  met : Bool
  prev : Char
deriving DecidableEq, Repr

/-- One iteration of the character loop of wrap_sep_string
(src/tools.rs 33-52), in source order: first the backtick/double-quote
toggle (only when sep is empty), then the sep-escape push, then the
space-escape push, then the character itself. -/
def wrapStep (sep : List Char) (st : WrapSt) (c : Char) : WrapSt :=
  let st1 :=
    if sep = [] ∧ (c = '\x60' ∨ c = '\x22') then
      if st.met = false then ⟨st.token, true, c⟩
      else if c = st.prev then ⟨st.token, false, 'N'⟩
      else st
    else st
  let tok1 := if [c] = sep then st1.token ++ ['\\'] else st1.token
  let tok2 := if c = ' ' ∧ sep = [] ∧ st1.met = false then tok1 ++ ['\\'] else tok1
  ⟨tok2 ++ [c], st1.met, st1.prev⟩

/-- The _token accumulated by the loop of wrap_sep_string over s. -/
def wrapInterior (sep s : List Char) : List Char :=
  (s.foldl (wrapStep sep) ⟨[], false, 'N'⟩).token

/-- wrap_sep_string (src/tools.rs 28-54): runs the character loop, then
format!("\x7b}\x7b}\x7b}", sep, _token, sep). -/
def wrap_sep_string (sep s : List Char) : List Char :=
  sep ++ wrapInterior sep s ++ sep

/- Helper lemmas about the wrap_sep_string loop. -/

/-- With a non-empty separator neither the quote toggle nor the
space-escape branch can fire, so the loop is the per-character image that
backslash-prefixes exactly the characters equal to the (single-character
reading of the) separator. -/
theorem wrapFold_of_sep_ne_nil (sep : List Char) (hsep : sep ≠ []) :
    ∀ (s : List Char) (tok : List Char) (met : Bool) (prev : Char),
      (s.foldl (wrapStep sep) ⟨tok, met, prev⟩).token =
        tok ++ escImage (fun c => if [c] = sep then ['\\', c] else [c]) s := by
  intro s
  induction s with
  | nil => intro tok met prev; simp [escImage]
  | cons c rest ih =>
    intro tok met prev
    have hstep : wrapStep sep ⟨tok, met, prev⟩ c =
        ⟨tok ++ (if [c] = sep then ['\\', c] else [c]), met, prev⟩ := by
      by_cases h : [c] = sep
      · simp [wrapStep, hsep, h]
      · simp [wrapStep, hsep, h]
    simp only [List.foldl_cons, hstep, ih, escImage, List.append_assoc]

/-- With the empty separator and no backtick or double-quote in the input,
met_subsep stays false and the loop is the per-character image that
backslash-prefixes exactly the spaces. -/
theorem wrapFold_of_no_quotes :
    ∀ (s : List Char), (∀ c ∈ s, c ≠ '\x60' ∧ c ≠ '\x22') →
      ∀ (tok : List Char) (prev : Char),
        (s.foldl (wrapStep ([] : List Char)) ⟨tok, false, prev⟩).token =
          tok ++ escImage (fun c => if c = ' ' then ['\\', c] else [c]) s := by
  intro s
  induction s with
  | nil => intro _ tok prev; simp [escImage]
  | cons c rest ih =>
    intro hq tok prev
    have hc := hq c (List.mem_cons_self c rest)
    have hstep : wrapStep [] ⟨tok, false, prev⟩ c =
        ⟨tok ++ (if c = ' ' then ['\\', c] else [c]), false, prev⟩ := by
      by_cases h : c = ' '
      · simp [wrapStep, hc.1, hc.2, h]
      · simp [wrapStep, hc.1, hc.2, h]
    have hrest : ∀ c ∈ rest, c ≠ '\x60' ∧ c ≠ '\x22' :=
      fun x hx => hq x (List.mem_cons_of_mem c hx)
    simp only [List.foldl_cons, hstep, ih hrest, escImage, List.append_assoc]

/- ===================== src/completers/path.rs ===================== -/

/-- The linefeed Suffix of a completion: an explicit character (the path
separator for directories), the default trailing behavior, or nothing. -/
inductive Suffix where
  | chr (c : Char)
  | dflt
  | nothing
deriving DecidableEq, Repr

/-- A linefeed Completion: the text to insert, an optional display label,
and the suffix marker. -/
structure Completion where
  completion : List Char
  display : Option (List Char)
  suffix : Suffix
deriving DecidableEq, Repr

/-- A directory entry as seen by the completer: its (UTF-8) file name and
whether entry.path().is_dir() holds.  Entries whose per-entry read failed
(the `if let Ok(entry)` guard) or whose name is not UTF-8 are skipped by
the source, so they are simply absent from the modelled listing. -/
structure CEntry where
  name : List Char
  isDir : Bool
deriving DecidableEq, Repr

/-- The filesystem as the completer sees it: a directory path maps to its
listing in read_dir order (unsorted), or to none when read_dir fails. -/
structure CFS where
  readDir : List Char → Option (List CEntry)

/-- Rust str::starts_with on the modelled strings: second argument is the
pattern. -/
def strStartsWith : List Char → List Char → Bool
  | _, [] => true
  | [], _ :: _ => false
  | c :: cs, p :: ps => c = p && strStartsWith cs ps

/-- Index of the last path separator (unix is_separator: the character
slash), as path.rfind(is_separator). -/
def lastSepIdx : List Char → Option Nat
  | [] => none
  | c :: rest =>
    match lastSepIdx rest with
    | some i => some (i + 1)
    | none => if c = '/' then some 0 else none

/-- split_path (src/completers/path.rs 104-109): splits at the last
separator into (directory part including the separator, remainder), or
(none, path) when no separator occurs. -/
def split_path (path : List Char) : Option (List Char) × List Char :=
  match lastSepIdx path with
  | some pos => (some (path.take (pos + 1)), path.drop (pos + 1))
  | none => (none, path)

/-- str::replace(name, "//", "/"): left-to-right non-overlapping
replacement of doubled separators. -/
def collapseDoubleSep : List Char → List Char
  | '/' :: '/' :: rest => '/' :: collapseDoubleSep rest
  | c :: rest => c :: collapseDoubleSep rest
  | [] => []

/-- complete_path (src/completers/path.rs 36-102).  path_sep is the String
literal new() at line 46, hence always empty: the wrap_sep_string/quoted
branch is dead and the escape_path branch always runs.  The source
computes dir_lookup from split_path but then calls read_dir(".") - the
model reproduces exactly that. -/
def complete_path (fs : CFS) (path : List Char) (for_dir : Bool) : List Completion :=
  let path_sep : List Char := []
  let dir_orig := (split_path path).1.getD []
  let file_name := (split_path path).2
  let _dir_lookup := (split_path path).1.getD ['.']
  match fs.readDir ['.'] with
  | none => []
  | some entries =>
    entries.filterMap (fun e =>
      if for_dir && !e.isDir then none
      else if strStartsWith e.name file_name then
        let nd : List Char × Option (List Char) :=
          if dir_orig ≠ [] then (dir_orig ++ ['/'] ++ e.name, some e.name)
          else (e.name, none)
        let name0 := collapseDoubleSep nd.1
        let name1 := if path_sep = [] then escape_path name0 else name0
        let name2 := if path_sep ≠ [] then wrap_sep_string path_sep name1 else name1
        let quoted := path_sep ≠ []
        let name3 := if e.isDir && quoted then name2.dropLast else name2
        let suffix := if e.isDir then Suffix.chr '/' else Suffix.dflt
        some ⟨name3, nd.2, suffix⟩
      else none)

/- ===================== src/prompts.rs : shared input model ============ -/

/-- Raw keys as delivered by console::Term::read_key, restricted to the
constructors this code distinguishes: the match in FileInput::inner_loop
only tests Key::Char of tab, every other key takes the wildcard arm. -/
inductive Key where
  | char (c : Char)
  | enter
  | arrowUp
  | arrowDown
  | escape
  | other
deriving DecidableEq, Repr

/- ===================== Confirmation ===================== -/

/-- Confirmation prompt configuration (prompts.rs 29-34). -/
structure ConfirmationCfg where
  text : String
  dflt : Bool
  showDefault : Bool

/-- Confirmation::interact_on (prompts.rs 139-164): after the initial
prompt render, repeatedly read one char; y or Y yields true, n or N
false, newline or carriage return the default, anything else loops.  A
failing read_char propagates through the question-mark operator. -/
def confirmationInteractOn (cfg : ConfirmationCfg) : List (Except IOErr Char) → PRes Bool
  | [] => .outOfInput
  | .error e :: _ => .err e
  | .ok c :: rest =>
    if c = 'y' ∨ c = 'Y' then .ok true
    else if c = 'n' ∨ c = 'N' then .ok false
    else if c = '\n' ∨ c = '\r' then .ok cfg.dflt
    else confirmationInteractOn cfg rest

/- ===================== Input (line input) ===================== -/

/-- Input prompt configuration (prompts.rs 48-55).  The boxed validator
chain is one optional closure (validate_with folds earlier validators into
it); the target-type parse models T::from_str. -/
structure InputCfg (T : Type) where
  dflt : Option T
  permitEmpty : Bool
  validator : Option (String → Option String)
  parse : String → Except String T

/-- One-iteration result of the Input loop body: terminate with a result
(recording the validator invocations made), or loop again. -/
inductive InputStepRes (T : Type) where
  | done (r : PRes T) (calls : List String)
  | again (calls : List String)

/-- The validate-then-parse tail of the Input loop body
(prompts.rs 502-518): run the validator if present (a rejection displays
the error and loops), then parse (a parse error displays and loops, a
parse success returns).  `calls` records each input string the validator
was invoked on. -/
def inputValidate {T : Type} (cfg : InputCfg T) (input : String) : InputStepRes T :=
  match cfg.validator with
  | some v =>
    match v input with
    | some _err => .again [input]
    | none =>
      match cfg.parse input with
      | .ok value => .done (.ok value) [input]
      | .error _ => .again [input]
  | none =>
    match cfg.parse input with
    | .ok value => .done (.ok value) []
    | .error _ => .again []

/-- The Input loop body on one read line (prompts.rs 493-518): an empty
line returns the default when present, silently loops when empty input is
not permitted, and otherwise falls through to validation; a non-empty line
goes straight to validation. -/
def inputStep {T : Type} (cfg : InputCfg T) (input : String) : InputStepRes T :=
  if input = "" then
    match cfg.dflt with
    | some d => .done (.ok d) []
    | none => if !cfg.permitEmpty then .again [] else inputValidate cfg input
  else inputValidate cfg input

/-- Input::interact_on (prompts.rs 479-520) over a script of line reads:
each iteration renders the prompt (infallible in the model), reads a line
(a failing read propagates), and runs the loop body.  Returns the result
together with the full list of inputs the validator chain was invoked on,
in order. -/
def inputLoop {T : Type} (cfg : InputCfg T) : List (Except IOErr String) → PRes T × List String
  | [] => (.outOfInput, [])
  | .error e :: _ => (.err e, [])
  | .ok input :: rest =>
    match inputStep cfg input with
    | .done r calls => (r, calls)
    | .again calls =>
      let p := inputLoop cfg rest
      (p.1, calls ++ p.2)

/- ===================== PasswordInput ===================== -/

/-- PasswordInput configuration (prompts.rs 85-90): whether empty
passwords are allowed, and the optional (confirmation prompt, mismatch
error) pair. -/
structure PasswordCfg where
  allowEmpty : Bool
  confirmation : Option (String × String)

/-- PasswordInput::prompt_password (prompts.rs 593-602): loop rendering
the password prompt and reading a secure line (a failing read
propagates); returns the first input that is non-empty or allowed empty.
Returns the result with the unconsumed remainder of the script. -/
def promptPassword (cfg : PasswordCfg) :
    List (Except IOErr String) → PRes String × List (Except IOErr String)
  | [] => (.outOfInput, [])
  | .error e :: rest => (.err e, rest)
  | .ok s :: rest =>
    if s ≠ "" ∨ cfg.allowEmpty then (.ok s, rest) else promptPassword cfg rest

/-- The outer loop of PasswordInput::interact_on (prompts.rs 572-591):
read a password; with no confirmation configured return it; otherwise
read a second one, return the first on a match and restart on a mismatch
(after rendering the mismatch error).  Fuel bounds the number of outer
iterations; since every iteration consumes at least one script element,
length + 1 fuel is never exhausted before the script is. -/
def passwordLoop (cfg : PasswordCfg) : Nat → List (Except IOErr String) → PRes String
  | 0, _ => .outOfInput
  | Nat.succ fuel, inputs =>
    match promptPassword cfg inputs with
    | (.ok p1, rest) =>
      match cfg.confirmation with
      | some _pe =>
        match promptPassword cfg rest with
        | (.ok p2, rest2) =>
          if p1 = p2 then .ok p1 else passwordLoop cfg fuel rest2
        | (.err e, _) => .err e
        | (.panicked, _) => .panicked
        | (.outOfInput, _) => .outOfInput
      | none => .ok p1
    | (.err e, _) => .err e
    | (.panicked, _) => .panicked
    | (.outOfInput, _) => .outOfInput

/-- PasswordInput::interact_on (prompts.rs 572-591) over a script of
secure line reads. -/
def passwordInteractOn (cfg : PasswordCfg) (inputs : List (Except IOErr String)) : PRes String :=
  passwordLoop cfg (inputs.length + 1) inputs

/- ===================== FileInput (file browser) ===================== -/

/-- FIState (prompts.rs 66-70): current path, the listed entries (only
their file names are consulted), and the optionally selected index
(Option of u32 in source; Nat here, with u32 wrapping made explicit at
the update sites). -/
structure FIState where
  path : String
  entries : List String
  selected : Option Nat
deriving DecidableEq, Repr

/-- Result of one key dispatch of FileInput::inner_loop: recurse on a new
state, return a path, or panic (an unwrap of a failed filesystem read). -/
inductive FIStep where
  | next (st : FIState)
  | done (p : String)
  | panicked
deriving DecidableEq, Repr

/-- The filesystem as the browser sees it: fs::read_dir yields either a
failure (none) or the per-entry read results in read_dir order, each an
Ok file name or an Err. -/
structure FS where
  readDir : String → Option (List (Except IOErr String))

/-- rd.map(|r| r.unwrap()).collect (prompts.rs 273): collects the entry
names, or none when some entry read failed (that unwrap panics). -/
def collectOk : List (Except IOErr String) → Option (List String)
  | [] => some []
  | .ok s :: rest => (collectOk rest).map (s :: ·)
  | .error _ :: _ => none

/-- fs::read_dir(&state.path).unwrap() followed by collecting unwrapped
entries: none means some unwrap panicked. -/
def listEntries (fs : FS) (p : String) : Option (List String) :=
  match fs.readDir p with
  | none => none
  | some rs => collectOk rs

/-- The key dispatch of FileInput::inner_loop (prompts.rs 270-294).  Only
Key::Char of tab is handled: it re-lists the current directory (both
unwraps panic on failure) and computes the new index - from Some(i) it is
i + 1 wrapped to 0 when it exceeds entries.len() - 1, from None it is 0.
The u32/usize arithmetic of the source is modelled with release
(wrapping) semantics: i + 1 wraps at 2^32 (4294967296) and
entries.len() - 1 wraps at 2^64 (18446744073709551616) before truncation
to u32, which matters only for the empty listing.  Every other key
returns the current path. -/
def fiStep (fs : FS) (st : FIState) (k : Key) : FIStep :=
  if k = Key.char '\t' then
    match listEntries fs st.path with
    | none => .panicked
    | some entries =>
      let index : Nat :=
        match st.selected with
        | some i =>
          let ni := (i + 1) % 4294967296
          if ni > (entries.length + 18446744073709551615) % 18446744073709551616 % 4294967296
          then 0 else ni
        | none => 0
      .next ⟨st.path, entries, some index⟩
  else .done st.path

/-- FileInput::inner_loop (prompts.rs 259-295) over a script of key
reads: term.read_key().unwrap() panics on a failed read, then the state
is rendered (infallible in the model) and the key dispatched; the Tab arm
recurses, every other arm returns the current path.  The unconsumed
remainder of the script is returned alongside the outcome. -/
def innerLoop (fs : FS) (st : FIState) :
    List (Except IOErr Key) → PRes String × List (Except IOErr Key)
  | [] => (.outOfInput, [])
  | .error _ :: rest => (.panicked, rest)
  | .ok k :: rest =>
    match fiStep fs st k with
    | .next st' => innerLoop fs st' rest
    | .done p => (.ok p, rest)
    | .panicked => (.panicked, rest)

/-- FileInput configuration (prompts.rs 57-64). -/
structure FileInputCfg where
  prompt : String
  dflt : Option String
  showDefault : Bool
  permitEmpty : Bool

/-- The initial browser state built in FileInput::interact_on
(prompts.rs 301-309): the unwrapped default path, an empty entry list,
and no selection. -/
def fiInitState (p : String) : FIState := ⟨p, [], none⟩

/-- FileInput::interact_on (prompts.rs 297-310): start_path.unwrap()
panics when no default is configured - before inner_loop runs and hence
before any key is read (the script is returned unconsumed); otherwise
inner_loop starts from the initial state. -/
def fileInputInteractOn (fs : FS) (cfg : FileInputCfg) (ks : List (Except IOErr Key)) :
    PRes String × List (Except IOErr Key) :=
  match cfg.dflt with
  | none => (.panicked, ks)
  | some p => innerLoop fs (fiInitState p) ks

/-- States of the browser reachable from some initial state by key
transitions that continue the loop. -/
inductive Reach (fs : FS) : FIState → Prop where
  | init (p : String) : Reach fs (fiInitState p)
  | step {st st' : FIState} {k : Key} :
      Reach fs st → fiStep fs st k = .next st' → Reach fs st'

/- ===================== Concrete fixtures ===================== -/

/-- A filesystem in which every directory lists the two entries x and y,
in that read_dir order. -/
def fsXY : FS := ⟨fun _ => some [Except.ok "x", Except.ok "y"]⟩

/-- A filesystem in which every directory listing is empty. -/
def fsE : FS := ⟨fun _ => some []⟩

/-- A filesystem in which every read_dir fails. -/
def fsNone : FS := ⟨fun _ => none⟩

/-- A completer filesystem: the current directory contains only the file
foo, and the directory sub contains only the file bar. -/
def fsC : CFS :=
  ⟨fun d =>
    if d = ['.'] then some [⟨['f', 'o', 'o'], false⟩]
    else if d = ['s', 'u', 'b'] then some [⟨['b', 'a', 'r'], false⟩]
    else none⟩

/-- A line-input configuration with default "main" and a validator
rejecting inputs longer than three characters. -/
def cfgMain : InputCfg String :=
  ⟨some "main", false,
   some (fun s => if s.length > 3 then some "too long" else none),
   fun s => Except.ok s⟩

/-- A confirmation configuration with default true. -/
def cfgConfirm : ConfirmationCfg := ⟨"continue?", true, true⟩

/-- A password configuration with a confirmation prompt. -/
def cfgPw : PasswordCfg := ⟨false, some ("confirm", "mismatch")⟩

/- ===================== Claims ===================== -/

/-- C1 counterexample: the claim asserts the initial FileBrowser state
has the sorted listing with synthetic "." and ".." prepended and
selected index 0; the state actually built by interact_on has an empty
entry list and no selection at all, so over a directory containing x and
y it is not [".", "..", "x", "y"] and selection is not 0. -/
theorem c1_counterexample :
    (fiInitState "/d").entries ≠ [".", "..", "x", "y"] ∧
    (fiInitState "/d").selected ≠ some 0 := by
  constructor <;> decide

/-- C1 (amended): the initial state has the configured default path, an
EMPTY entry list and NO selected index; the first Tab key then populates
the entries with the raw read_dir listing exactly as returned by the
filesystem - unsorted, without synthetic "." or ".." entries - and sets
the selection to index 0. -/
theorem c1_amended (fs : FS) (p : String) (es : List String)
    (h : listEntries fs p = some es) :
    fiInitState p = ⟨p, [], none⟩ ∧
    fiStep fs (fiInitState p) (Key.char '\t') = .next ⟨p, es, some 0⟩ := by
  refine ⟨rfl, ?_⟩
  simp [fiStep, fiInitState, h]

/-- C1 witness: over the filesystem listing x and y, the first Tab from
the initial state yields exactly those two raw entries with selection 0. -/
theorem c1_amended_witness :
    fiStep fsXY (fiInitState "/d") (Key.char '\t') =
      FIStep.next ⟨"/d", ["x", "y"], some 0⟩ :=
  (c1_amended fsXY "/d" ["x", "y"] rfl).2

/-- C2 counterexample: in a state at directory /d whose listing is
[x, y] with the non-synthetic entry x selected (in the modelled
filesystem x is itself a directory of /d), pressing Enter neither
transitions into x (no .next result exists) nor returns the resolved
entry path /d/x: it returns the unchanged current directory /d.  This
refutes both halves of the claimed Enter behavior. -/
theorem c2_counterexample :
    fiStep fsXY ⟨"/d", ["x", "y"], some 0⟩ Key.enter = FIStep.done "/d" ∧
    (¬ ∃ st', fiStep fsXY ⟨"/d", ["x", "y"], some 0⟩ Key.enter = FIStep.next st') ∧
    "/d" ≠ "/d/x" := by
  refine ⟨by decide, ?_, by decide⟩
  rintro ⟨st', h⟩
  rw [show fiStep fsXY ⟨"/d", ["x", "y"], some 0⟩ Key.enter = FIStep.done "/d"
      from by decide] at h
  exact FIStep.noConfusion h

/-- C2 (amended): pressing Enter - like every key other than Tab -
terminates the interaction returning the current directory path,
regardless of the selection; no path resolution, canonicalization, or
directory descent occurs. -/
theorem c2_amended (fs : FS) (st : FIState) :
    fiStep fs st Key.enter = FIStep.done st.path := by
  simp [fiStep]

/-- C3 counterexample: a backward move (Up-arrow) from index 0 does not
wrap the selection to the last index: it terminates the browser with the
current directory (no .next state exists at all). -/
theorem c3_counterexample :
    fiStep fsXY ⟨"/d", ["x", "y"], some 0⟩ Key.arrowUp = FIStep.done "/d" ∧
    ¬ ∃ st', fiStep fsXY ⟨"/d", ["x", "y"], some 0⟩ Key.arrowUp = FIStep.next st' := by
  refine ⟨by decide, ?_⟩
  rintro ⟨st', h⟩
  rw [show fiStep fsXY ⟨"/d", ["x", "y"], some 0⟩ Key.arrowUp = FIStep.done "/d"
      from by decide] at h
  exact FIStep.noConfusion h

/-- C3 (amended): only Tab moves the selection: after re-listing the
directory, a Tab from the last index of the (non-empty) fresh listing
wraps the selection to 0; Up-arrow, Down-arrow and Escape do not move the
selection backward or forward - every non-Tab key terminates the
interaction returning the current directory path. -/
theorem c3_amended (fs : FS) (st : FIState) (es : List String)
    (hes : listEntries fs st.path = some es)
    (hsel : st.selected = some (es.length - 1))
    (hne : es ≠ []) (hlen : es.length < 4294967296) :
    fiStep fs st (Key.char '\t') = FIStep.next ⟨st.path, es, some 0⟩ ∧
    ∀ k, k ≠ Key.char '\t' → fiStep fs st k = FIStep.done st.path := by
  constructor
  · have hpos : 0 < es.length := List.length_pos.mpr hne
    have harith : (es.length - 1 + 1) % 4294967296 >
        (es.length + 18446744073709551615) % 18446744073709551616 % 4294967296 := by
      omega
    simp [fiStep, hes, hsel, harith]
  · intro k hk
    simp [fiStep, hk]

/-- C3 witness: at the last index 1 of the two-entry listing, Tab wraps
the selection to 0. -/
theorem c3_amended_witness :
    fiStep fsXY ⟨"/d", ["x", "y"], some 1⟩ (Key.char '\t') =
      FIStep.next ⟨"/d", ["x", "y"], some 0⟩ :=
  (c3_amended fsXY ⟨"/d", ["x", "y"], some 1⟩ ["x", "y"] rfl rfl
    (by decide) (by decide)).1

/-- C4 counterexample: in a directory whose listing is empty, the state
reached from the initial state by a single Tab has selected = 0 while
the entry list is empty, so 0 <= selected < entries.len() fails on a
reachable state - precisely the empty-listing Tab case the claim
includes. -/
theorem c4_counterexample :
    Reach fsE ⟨"/e", [], some 0⟩ ∧
    (FIState.mk "/e" [] (some 0)).selected = some 0 ∧
    ¬ (0 < (FIState.mk "/e" [] (some 0)).entries.length) := by
  refine ⟨Reach.step (Reach.init "/e")
    (show fiStep fsE (fiInitState "/e") (Key.char '\t') =
        FIStep.next ⟨"/e", [], some 0⟩ by decide), rfl, by decide⟩

/-- C4 (amended): provided every directory listing the filesystem
returns is non-empty, every state reachable from an initial state
satisfies the invariant: whenever the selected index is set it is a
valid index into the entry list.  (With an empty listing the invariant
fails: see the counterexample; there a second Tab would also underflow
entries.len() - 1 in the source.) -/
theorem c4_amended (fs : FS)
    (hne : ∀ p es, listEntries fs p = some es → es ≠ [])
    (st : FIState) (hr : Reach fs st) :
    ∀ i, st.selected = some i → i < st.entries.length := by
  induction hr with
  | init p => intro i hi; simp [fiInitState] at hi
  | @step st1 st2 k hprev hstep ih =>
    intro i hi
    simp only [fiStep] at hstep
    by_cases hk : k = Key.char '\t'
    · rw [if_pos hk] at hstep
      cases hles : listEntries fs st1.path with
      | none => rw [hles] at hstep; exact absurd hstep (by simp)
      | some es =>
        rw [hles] at hstep
        have hes := hne st1.path es hles
        have hpos : 0 < es.length := List.length_pos.mpr hes
        cases hsel : st1.selected with
        | none =>
          rw [hsel] at hstep
          simp only [FIStep.next.injEq] at hstep
          subst hstep
          have hi' : some 0 = some i := hi
          injection hi' with hii
          show i < es.length
          omega
        | some j =>
          rw [hsel] at hstep
          simp only [FIStep.next.injEq] at hstep
          subst hstep
          have hi' : some (if (j + 1) % 4294967296 >
              (es.length + 18446744073709551615) % 18446744073709551616 % 4294967296
              then 0 else (j + 1) % 4294967296) = some i := hi
          injection hi' with hii
          show i < es.length
          by_cases hcond : (j + 1) % 4294967296 >
              (es.length + 18446744073709551615) % 18446744073709551616 % 4294967296
          · rw [if_pos hcond] at hii; omega
          · rw [if_neg hcond] at hii; omega
    · rw [if_neg hk] at hstep
      exact absurd hstep (by simp)

/-- C4 witness: over the filesystem whose listings are all [x, y]
(non-empty), the reachable state after one Tab has its selected index 0
within bounds. -/
theorem c4_amended_witness :
    (0 : Nat) < (FIState.mk "/d" ["x", "y"] (some 0)).entries.length :=
  c4_amended fsXY
    (fun p es h => by injection h with h2; subst h2; decide)
    ⟨"/d", ["x", "y"], some 0⟩
    (Reach.step (Reach.init "/d")
      (show fiStep fsXY (fiInitState "/d") (Key.char '\t') =
          FIStep.next ⟨"/d", ["x", "y"], some 0⟩ by decide))
    0 rfl

/-- C5 code bug: complete_path computes dir_lookup from the fragment but
then lists read_dir(".") regardless.  Over the fixture filesystem (the
current directory holds only foo, the directory sub holds only bar) the
fragment sub/b yields no candidate at all - although sub contains bar,
which the claimed lookup in the directory prefix would return - while the
fragment sub/f yields the candidate sub/foo, fabricated by gluing the
directory prefix onto an entry of the current directory. -/
theorem c5_code_bug :
    complete_path fsC ['s', 'u', 'b', '/', 'b'] false = [] ∧
    complete_path fsC ['s', 'u', 'b', '/', 'f'] false =
      [⟨['s', 'u', 'b', '/', 'f', 'o', 'o'], some ['f', 'o', 'o'], Suffix.dflt⟩] ∧
    fsC.readDir ['s', 'u', 'b'] = some [⟨['b', 'a', 'r'], false⟩] :=
  ⟨rfl, rfl, rfl⟩

/-- C6 counterexample: a failing terminal key read in the FileBrowser
does not produce a failure result for the caller: inner_loop unwraps the
read and panics (no Err outcome is ever equal to the panic outcome). -/
theorem c6_counterexample :
    innerLoop fsXY ⟨"/d", [], none⟩ [Except.error "boom"] = (PRes.panicked, []) ∧
    ∀ e : IOErr, (PRes.panicked : PRes String) ≠ PRes.err e := by
  refine ⟨rfl, ?_⟩
  intro e h
  exact PRes.noConfusion h

/-- C6 (amended): Confirmation, LineInput and PasswordInput propagate a
failing terminal read to the caller as a result failure; FileInput
instead unwraps both a failing key read and a failing directory listing
and aborts (panics) rather than returning a failure result. -/
theorem c6_amended :
    (∀ (cfg : ConfirmationCfg) (e : IOErr) (rest : List (Except IOErr Char)),
        confirmationInteractOn cfg (Except.error e :: rest) = PRes.err e) ∧
    (∀ (T : Type) (cfg : InputCfg T) (e : IOErr) (rest : List (Except IOErr String)),
        inputLoop cfg (Except.error e :: rest) = (PRes.err e, [])) ∧
    (∀ (cfg : PasswordCfg) (e : IOErr) (rest : List (Except IOErr String)),
        passwordInteractOn cfg (Except.error e :: rest) = PRes.err e) ∧
    (∀ (fs : FS) (st : FIState) (e : IOErr) (rest : List (Except IOErr Key)),
        innerLoop fs st (Except.error e :: rest) = (PRes.panicked, rest)) ∧
    (∀ (fs : FS) (st : FIState) (rest : List (Except IOErr Key)),
        fs.readDir st.path = none →
        innerLoop fs st (Except.ok (Key.char '\t') :: rest) = (PRes.panicked, rest)) := by
  refine ⟨fun cfg e rest => rfl, fun T cfg e rest => rfl, fun cfg e rest => rfl,
    fun fs st e rest => rfl, fun fs st rest h => ?_⟩
  simp [innerLoop, fiStep, listEntries, h]

/-- C6 witness: concrete failing reads for each behavior - the
confirmation and password prompts return the error, the file browser
panics on a failing directory listing. -/
theorem c6_amended_witness :
    confirmationInteractOn cfgConfirm [Except.error "boom"] = PRes.err "boom" ∧
    passwordInteractOn cfgPw [Except.error "boom"] = PRes.err "boom" ∧
    innerLoop fsNone ⟨"/d", [], none⟩ [Except.ok (Key.char '\t')] = (PRes.panicked, []) :=
  ⟨c6_amended.1 cfgConfirm "boom" [],
   c6_amended.2.2.1 cfgPw "boom" [],
   c6_amended.2.2.2.2 fsNone ⟨"/d", [], none⟩ [] rfl⟩

/-- C7 counterexample: with the two-character separator ab and input ab,
the result is ababab - it does begin and end with the separator, but the
interior occurrence of ab coming from the input is not backslash-prefixed
(the loop only compares single characters against sep, so no backslash is
ever emitted). -/
theorem c7_counterexample :
    wrap_sep_string ['a', 'b'] ['a', 'b'] = ['a', 'b', 'a', 'b', 'a', 'b'] ∧
    ¬ ∃ u v, wrapInterior ['a', 'b'] ['a', 'b'] = u ++ '\\' :: 'a' :: 'b' :: v := by
  refine ⟨by decide, ?_⟩
  rintro ⟨u, v, h⟩
  rw [show wrapInterior ['a', 'b'] ['a', 'b'] = ['a', 'b'] from by decide] at h
  have hlen := congrArg List.length h
  simp [List.length_append] at hlen
  omega

/-- C7 (amended): for every SINGLE-CHARACTER separator, the result is
the separator, then the input with every occurrence of the separator
character backslash-prefixed, then the separator again - so it begins
and ends with sep and every interior occurrence of sep is escaped.  (For
separators of two or more characters the result still begins and ends
with sep, but occurrences of sep in the input are not escaped: see the
counterexample.) -/
theorem c7_amended (c0 : Char) (s : List Char) :
    wrap_sep_string [c0] s =
      [c0] ++ escImage (fun c => if c = c0 then ['\\', c] else [c]) s ++ [c0] := by
  have hfun : (fun c => if [c] = [c0] then ['\\', c] else [c]) =
      (fun c => if c = c0 then ['\\', c] else [c]) := by
    funext c
    simp [List.cons.injEq]
  unfold wrap_sep_string wrapInterior
  rw [wrapFold_of_sep_ne_nil [c0] (by simp) s [] false 'N', hfun]
  simp

/-- C8 counterexample: with the empty separator, a space between two
double quotes is NOT backslash-escaped - the met_subsep toggle suppresses
space escaping inside a quoted segment - so the output is not the image
escaping every space of the input. -/
theorem c8_counterexample :
    wrap_sep_string [] ['\x22', ' ', '\x22'] = ['\x22', ' ', '\x22'] ∧
    wrap_sep_string [] ['\x22', ' ', '\x22'] ≠
      escImage (fun c => if c = ' ' then ['\\', c] else [c]) ['\x22', ' ', '\x22'] := by
  constructor <;> decide

/-- C8 (amended): with the empty separator, every space occurring outside
a backtick- or double-quote-delimited segment is backslash-escaped; in
particular, for every input containing no backtick and no double quote,
the output is exactly the input with every space backslash-prefixed
(spaces inside quoted segments are deliberately left unescaped: see the
counterexample). -/
theorem c8_amended (s : List Char) (h : ∀ c ∈ s, c ≠ '\x60' ∧ c ≠ '\x22') :
    wrap_sep_string [] s =
      escImage (fun c => if c = ' ' then ['\\', c] else [c]) s := by
  unfold wrap_sep_string wrapInterior
  rw [wrapFold_of_no_quotes s h [] 'N']
  simp

/-- C8 witness: a space between plain letters is escaped. -/
theorem c8_amended_witness :
    wrap_sep_string [] ['a', ' ', 'b'] = ['a', '\\', ' ', 'b'] :=
  (c8_amended ['a', ' ', 'b'] (by decide)).trans (by decide)

/-- C9: an Input (LineInput) with a configured default returns that
default on an empty line, terminating the loop at once, and the
validator chain is never invoked - the recorded list of validator
invocations is empty. -/
theorem c9_line_default {T : Type} (cfg : InputCfg T) (d : T)
    (rest : List (Except IOErr String)) (h : cfg.dflt = some d) :
    inputLoop cfg (Except.ok "" :: rest) = (PRes.ok d, []) := by
  simp [inputLoop, inputStep, h]

/-- C9 witness: the configuration with default "main" and a length
validator returns "main" on an empty line with no validator call. -/
theorem c9_line_default_witness :
    inputLoop cfgMain [Except.ok ""] = (PRes.ok "main", []) :=
  c9_line_default cfgMain "main" [] rfl

/-- C10: FileInput::interact_on with no configured default panics -
start_path.unwrap() on None - instead of returning an error result, and
it does so before any key is read: the key script is returned untouched
for every script. -/
theorem c10_no_default_panics (fs : FS) (cfg : FileInputCfg)
    (ks : List (Except IOErr Key)) (h : cfg.dflt = none) :
    fileInputInteractOn fs cfg ks = (PRes.panicked, ks) := by
  simp [fileInputInteractOn, h]

/-- C10 witness: with no default configured, the interaction panics and
the pending Enter key is never consumed. -/
theorem c10_no_default_panics_witness :
    fileInputInteractOn fsXY ⟨"", none, true, false⟩ [Except.ok Key.enter] =
      (PRes.panicked, [Except.ok Key.enter]) :=
  c10_no_default_panics fsXY ⟨"", none, true, false⟩ [Except.ok Key.enter] rfl
